import Mathlib

/-!
# Verification of the `oaas` obfuscation repository against its specification

Shallow embedding of the repository's C/C++ sources:

* the XOR string-decryption helpers emitted by the String Encryptor
  (`_decrypt_xor`, `_decrypt_string`, `_xor_decrypt`);
* the example programs `simple_auth.c` / `simple_auth_obfuscated.c`
  (`check_password`) and the report fixture
  `test_api_simple_string_encrypted.c`;
* the license-validator fixtures: the original `validate_license_key` /
  `check_license_expiry` and the control-flow-flattened state machines of
  `license_validator_protected.c` and `license_validator_level2.c`;
* the LLVM pass `SimpleObfuscator.cpp` (`renameFunctions`,
  `renameVariables`, `stripDebugInfo`).

Bytes are modelled as `Nat` (byte values < 256 at all concrete call sites);
a C string is modelled as its byte content before the terminating NUL, so a
`const char *` that may be NULL becomes `Option (List Nat)`.  `malloc`
either succeeds or fails; this nondeterminism is threaded through as an
explicit `allocOk : Bool` oracle, `none` standing for a NULL buffer.
-/

/-! ## XOR decryption helpers (String Encryptor runtime) -/

/-- The byte loop shared by all emitted decrypt helpers:
`for (int i = 0; i < len; i++) dec[i] = enc[i] ^ key;`.
`len` is the length of `enc`, as at every call site in the sources. -/
def xorLoop (enc : List Nat) (key : Nat) : List Nat :=
  match enc with
  | [] => []
  | b :: rest => (b ^^^ key) :: xorLoop rest key

/-- Function `_decrypt_xor` from `simple_auth_obfuscated.c` lines 11-19:
`malloc(len + 1)` (`none` on failure), the XOR byte loop, then
`dec[len] = '\0'`; returns the buffer. -/
def _decrypt_xor (allocOk : Bool) (enc : List Nat) (key : Nat) :
    Option (List Nat) :=
  if allocOk then some (xorLoop enc key ++ [0]) else none

/-- Function `_decrypt_string` from `license_validator_protected.c` /
`license_validator_level2.c` / `simple_auth_encrypted.c`: byte-for-byte the
same routine as `_decrypt_xor`. -/
def _decrypt_string (allocOk : Bool) (enc : List Nat) (key : Nat) :
    Option (List Nat) :=
  if allocOk then some (xorLoop enc key ++ [0]) else none

/-- Function `_xor_decrypt` from the report fixture
`test_api_simple_string_encrypted.c` lines 7-15: again the same routine. -/
def _xor_decrypt (allocOk : Bool) (enc : List Nat) (key : Nat) :
    Option (List Nat) :=
  if allocOk then some (xorLoop enc key ++ [0]) else none

/-- Modelled from the spec: the String Encryptor's encryption step —
"computes ciphertext = `literal[i] XOR key` for each byte" (spec §4.4).
The encryptor tool itself is not under `src/`; only the decrypt routines it
emits are, so the encryption direction is taken from the spec's words. -/
def encrypt_xor (s : List Nat) (key : Nat) : List Nat :=
  s.map (fun b => b ^^^ key)

/-- The C-string content of a byte buffer: the bytes before the first NUL
(this is what `strcmp`/`printf %s` read). -/
def cString (buf : List Nat) : List Nat :=
  buf.takeWhile (fun b => !(b == 0))

/-- Predicate `strcmp(a, b) == 0` on two byte buffers viewed as C strings. -/
def strcmpEq (a b : List Nat) : Bool :=
  cString a == cString b

/-! ## `simple_auth.c` and `simple_auth_obfuscated.c` -/

/-- The literal `"admin123"` (`SECRET_PASSWORD` in `simple_auth.c`). -/
def SECRET_PASSWORD : List Nat := [97, 100, 109, 105, 110, 49, 50, 51]

/-- Function `check_password` from `simple_auth.c` lines 12-22: NULL check, then
`strcmp(input, "admin123") == 0 ? 1 : 0`. -/
def check_password (input : Option (List Nat)) : Int :=
  match input with
  | none => 0
  | some s => if strcmpEq s SECRET_PASSWORD then 1 else 0

/-- Constant `_encrypted_password` from `simple_auth_obfuscated.c` lines 34-36:
`"admin123"` XORed with key `0xAB`. -/
def _encrypted_password : List Nat :=
  [0xCA, 0xCF, 0xC6, 0xC2, 0xC5, 0x9A, 0x99, 0x98]

/-- Function `check_password` from `simple_auth_obfuscated.c` lines 38-53: NULL
check; decrypt the stored ciphertext with key `0xAB`; if the allocation
failed (`!secret`) return 0; otherwise compare with `strcmp` and return
1/0 (the buffer is then securely wiped, which does not affect the result). -/
def check_password_obf (allocOk : Bool) (input : Option (List Nat)) : Int :=
  match input with
  | none => 0
  | some s =>
    match _decrypt_xor allocOk _encrypted_password 0xAB with
    | none => 0
    | some secret => if strcmpEq s secret then 1 else 0

/-! ## Report fixture `test_api_simple_string_encrypted.c` -/

/-- Ciphertext of `API_KEY` (fixture line 37), key `0x9f`. -/
def API_KEY_enc : List Nat :=
  [0xec, 0xfa, 0xfc, 0xed, 0xfa, 0xeb, 0xc0, 0xfe, 0xef, 0xf6,
   0xc0, 0xf4, 0xfa, 0xe6, 0xc0, 0xae, 0xad, 0xac, 0xab, 0xaa]

/-- Ciphertext of `DB_PASSWORD` (fixture line 38), key `0xed`. -/
def DB_PASSWORD_enc : List Nat :=
  [0x89, 0x8f, 0xb2, 0x9d, 0x8c, 0x9e, 0x9e, 0xb2, 0x9d, 0x9f,
   0x82, 0x89, 0xb2, 0xdf, 0xdd, 0xdf, 0xd9]

/-- Constructor `_init_encrypted_strings` (fixture lines 36-39)
assigns the two decrypted buffers to the globals, with no null check. -/
def _init_encrypted_strings (allocOk : Bool) :
    Option (List Nat) × Option (List Nat) :=
  (_xor_decrypt allocOk API_KEY_enc 0x9f,
   _xor_decrypt allocOk DB_PASSWORD_enc 0xed)

/-- Function `main` of the fixture (lines 28-32): passes `API_KEY` and
`DB_PASSWORD` straight to `printf("%s", ...)` with no null check anywhere.
`printf %s` dereferences the pointer, so a NULL global is undefined
behaviour, modelled as the `none` outcome; otherwise `main` prints the two
strings. -/
def test_api_main (allocOk : Bool) : Option (List Nat × List Nat) :=
  match _init_encrypted_strings allocOk with
  | (some a, some d) => some (cString a, cString d)
  | _ => none

/-! ## `license_validator.c` — the original functions -/

/-- Constant `MASTER_KEY`: the bytes of `"ACME-2024-PROF-XXXX"`. -/
def MASTER_KEY : List Nat :=
  [65, 67, 77, 69, 45, 50, 48, 50, 52, 45, 80, 82, 79, 70, 45, 88, 88, 88, 88]

/-- Constant `KEY_LENGTH` (19). -/
def KEY_LENGTH : Nat := 19

/-- The digit-sum loop of `validate_license_key` lines 47-52:
`for (i = 0; i < KEY_LENGTH; i++) if IN ['0','9'] sum += key[i] - '0'`,
unrolled as a recursion on the upper bound `i`. -/
def digitSumUpTo (k : List Nat) : Nat → Nat
  | 0 => 0
  | i + 1 =>
    digitSumUpTo k i +
      (if 48 ≤ k.getD i 0 ∧ k.getD i 0 ≤ 57 then k.getD i 0 - 48 else 0)

/-- Function `validate_license_key` from `license_validator.c` lines 22-62.  The
result is the list of lines printed to stdout paired with the return
value.  Byte 45 is `'-'`. -/
def validate_license_key (user_key : Option (List Nat)) :
    List String × Int :=
  match user_key with
  | none => ([], 0)
  | some k =>
    if k.length ≠ KEY_LENGTH then (["Invalid key length"], 0)
    else if k.getD 4 0 ≠ 45 ∨ k.getD 9 0 ≠ 45 ∨ k.getD 14 0 ≠ 45 then
      (["Invalid key format"], 0)
    else if strcmpEq k MASTER_KEY then
      (["License valid - Professional edition activated"], 1)
    else if digitSumUpTo k KEY_LENGTH = 42 then
      (["License valid - Special edition activated"], 1)
    else (["Invalid license key"], 0)

/-- Function `check_license_expiry` from `license_validator.c` lines 68-87: extract
the year from byte positions 5-8 and compare with 2024.  `license_key` is
dereferenced by `strlen` unconditionally, so it is a plain byte string. -/
def check_license_expiry (license_key : List Nat) : List String × Int :=
  if license_key.length < 9 then ([], 0)
  else
    let year : Int :=
      ((license_key.getD 5 0 : Int) - 48) * 1000 +
      ((license_key.getD 6 0 : Int) - 48) * 100 +
      ((license_key.getD 7 0 : Int) - 48) * 10 +
      ((license_key.getD 8 0 : Int) - 48)
    if year < 2024 then (["License expired"], 0) else ([], 1)

/-! ## Opaque predicates of the protected fixtures

Each injected guard condition, written exactly as in the fixtures.  The
parameters stand for the one run-time quantity the guard reads: the value
returned by `rand()`, the value read back from a `volatile` local, and the
address of `main` (non-null for every C function). -/

/-- Guard `rand() % 4 >= 4` (`license_validator_protected.c` line 55). -/
def opq_rand (r : Nat) : Bool := decide (r % 4 ≥ 4)

/-- Guard `(int*)0 != NULL` (`license_validator_protected.c` line 68): the
pointer value 0 compared unequal to the null pointer (value 0). -/
def opq_nullPtr : Bool := decide ((0 : Nat) ≠ 0)

/-- Guard `v < 0 && v > 0` on a `volatile int v` (protected fixtures, e.g.
`license_validator_protected.c` line 80). -/
def opq_volatilePos (v : Int) : Bool := decide (v < 0 ∧ v > 0)

/-- Guard `c > bound` for a small constant against a large bound (e.g.
`_fake_var_8682 = 53` against `7810`, `license_validator_protected.c`
line 89). -/
def opq_smallBig (c bound : Nat) : Bool := decide (c > bound)

/-- Guard `(int)&main == 0` (e.g. `license_validator_protected.c` line 99). -/
def opq_mainAddr (addr : Nat) : Bool := decide (addr = 0)

/-! ## Flattened state machines

`license_validator_protected.c` and `license_validator_level2.c` are
syntactically malformed (an unterminated `if` swallowing later `case`
labels, the `_state = _next_state` update left inside the `switch`, and
the tail of the original function stranded at file scope), so they have no
literal C semantics; spec §9 records these as generator defects.  We model
the evident intended dispatch semantics: each `case k` executes the body
printed under that label (its opaque-predicate guard followed by its
`_next_state` assignment or exit), after which the loop performs
`_state = _next_state`. -/

/-- Outcome of one state body. -/
inductive FlatStep where
  | next (s : Nat)
  | exit (ret : Int)
  | crash
  | invalid
deriving DecidableEq

/-- Result of driving a flattened function. -/
inductive FlatResult where
  | ret (v : Int)
  | crash
  | invalid
  | fuelOut
deriving DecidableEq

/-- The `switch` bodies of the flattened `validate_license_key`
(`license_validator_protected.c` lines 63-147), in source `case` order.
`addr` is the address of `main`; `user_key` the function argument.
State 2's body is `return 0`.  The `default` label exits with the
uninitialised `_ret_val`, modelled `invalid`. -/
def flatValidateStep (addr : Nat) (user_key : Option (List Nat)) (s : Nat) :
    FlatStep :=
  match s with
  | 0 => if opq_nullPtr then .crash else .next 1
  | 5 => if opq_volatilePos 25 then .crash else .next 4
  | 6 => if opq_smallBig 53 7810 then .exit (-1) else .exit (-1)
  | 3 => if opq_mainAddr addr then .crash else .next 2
  | 1 =>
    match user_key with
    | none => .next 2
    | some _ => .next 3
  | 7 => if opq_volatilePos 85 then .crash else .next 3
  | 2 => .exit 0
  | 4 => if opq_volatilePos 33 then .crash else .next 4
  | _ => .invalid

/-- The dispatch loop: run `fuel` iterations starting from state `s`. -/
def flatValidateRun (addr : Nat) (user_key : Option (List Nat)) :
    Nat → Nat → FlatResult
  | 0, _ => .fuelOut
  | fuel + 1, s =>
    match flatValidateStep addr user_key s with
    | .next s2 => flatValidateRun addr user_key fuel s2
    | .exit v => .ret v
    | .crash => .crash
    | .invalid => .invalid

/-- The whole flattened `validate_license_key`: the pre-loop dead branch
(`if (rand() % 4 >= 4) { free((void*)0xDEADBEEF); return -1; }`, an
invalid `free`, modelled `crash`), then the dispatch loop from state 0. -/
def flatValidate (r addr : Nat) (user_key : Option (List Nat))
    (fuel : Nat) : FlatResult :=
  if opq_rand r then .crash else flatValidateRun addr user_key fuel 0

/-- The `switch` bodies of the flattened `check_license_expiry`
(`license_validator_level2.c` lines 101-178), in source `case` order.
Real states: 0 (entry), 1 (the `strlen < 9` test, whose false branch sets
`_next_state = 3`), 2 (`return 0`).  States 3-7 are the interleaved decoy
states. -/
def flatExpiryStep (addr : Nat) (license_key : List Nat) (s : Nat) :
    FlatStep :=
  match s with
  | 0 => .next 1
  | 7 => if opq_mainAddr addr then .crash else .next 3
  | 6 => if opq_volatilePos 96 then .crash else .next 1
  | 3 => if opq_volatilePos 15 then .crash else .next 3
  | 5 => if opq_smallBig 73 9454 then .exit (-1) else .exit (-1)
  | 2 => .exit 0
  | 1 => if license_key.length < 9 then .next 2 else .next 3
  | 4 => if opq_mainAddr addr then .crash else .next 3
  | _ => .invalid

/-- Dispatch loop of the flattened `check_license_expiry`. -/
def flatExpiryRun (addr : Nat) (license_key : List Nat) :
    Nat → Nat → FlatResult
  | 0, _ => .fuelOut
  | fuel + 1, s =>
    match flatExpiryStep addr license_key s with
    | .next s2 => flatExpiryRun addr license_key fuel s2
    | .exit v => .ret v
    | .crash => .crash
    | .invalid => .invalid

/-- The sequence of states entered by the flattened `check_license_expiry`
within `fuel` dispatch iterations, starting at state `s`. -/
def flatExpiryTrace (addr : Nat) (license_key : List Nat) :
    Nat → Nat → List Nat
  | 0, s => [s]
  | fuel + 1, s =>
    s ::
      (match flatExpiryStep addr license_key s with
       | .next s2 => flatExpiryTrace addr license_key fuel s2
       | _ => [])

/-! ## `SimpleObfuscator.cpp` — the LLVM module pass

The slice of the LLVM IR the pass reads and mutates: function names,
linkage, declaration/intrinsic status, argument and instruction names,
direct-call callees, and named module metadata. -/

/-- Linkage kinds the pass distinguishes (`GlobalValue::ExternalLinkage`
versus everything else). -/
inductive Linkage where
  | external
  | internal
deriving DecidableEq

/-- An instruction, as far as the pass reads it: its optional result name,
whether its type is `void`, and — when it is a direct call — the name of
the called function. -/
structure Instr where
  name : Option String
  isVoid : Bool
  callee : Option String
deriving DecidableEq

/-- A function: name, declaration/linkage status, argument names (`none`
for an unnamed argument), and basic blocks of instructions. -/
structure Func where
  name : String
  isDeclaration : Bool
  linkage : Linkage
  args : List (Option String)
  blocks : List (List Instr)
deriving DecidableEq

/-- Method `StringRef::startswith(p)`: the characters of `p` are an initial
segment of the string (stated on the character lists so it evaluates in
the kernel). -/
def strPrefix (p s : String) : Bool := p.data.isPrefixOf s.data

/-- Method `Function::isIntrinsic()`: in the LLVM generation this pass targets it
returns `HasLLVMReservedName`, i.e. whether the function's name begins
with the reserved prefix `"llvm."`. -/
def Func.isIntrinsic (f : Func) : Bool := strPrefix "llvm." f.name

/-- A module: its functions in declaration order plus the names of its
named metadata nodes (unique per name in LLVM). -/
structure IRModule where
  functions : List Func
  namedMD : List String
deriving DecidableEq

/-- The eligibility test of `renameFunctions` (`SimpleObfuscator.cpp`
lines 70-72): `!F.isDeclaration() && !F.isIntrinsic() &&
!F.getName().startswith("llvm.") && F.getLinkage() != ExternalLinkage`. -/
def shouldRenameFunc (f : Func) : Bool :=
  !f.isDeclaration && !f.isIntrinsic && !(strPrefix "llvm." f.name) &&
    !(f.linkage == .external)

/-- Function `renameFunctions` (`SimpleObfuscator.cpp` lines 61-88): the eligible
functions, in module declaration order, get `"f" + cnt++` with the counter
starting at `k` (the pass calls it with `funcCounter = 1`; collecting the
eligible functions first and renaming afterwards visits them in the same
order, so the two-phase loop collapses to one traversal). -/
def renameFunctions : List Func → Nat → List Func
  | [], _ => []
  | f :: rest, k =>
    if shouldRenameFunc f then
      { f with name := "f" ++ Nat.repr k } :: renameFunctions rest (k + 1)
    else
      f :: renameFunctions rest k

/-- The claim's eligibility wording ("defined, not intrinsic, and not of
external linkage"), stated for comparison with `shouldRenameFunc`. -/
def claimEligibleFunc (f : Func) : Bool :=
  !f.isDeclaration && !f.isIntrinsic && !(f.linkage == .external)

/-- The variable name `"v" + std::to_string(k)`. -/
def vName (k : Nat) : String := "v" ++ Nat.repr k

/-- The argument loop of `renameVariables` (`SimpleObfuscator.cpp`
lines 102-108): every named argument gets `"v" + varCounter++`. -/
def renameArgs : List (Option String) → Nat → List (Option String) × Nat
  | [], k => ([], k)
  | some _ :: rest, k =>
    let r := renameArgs rest (k + 1)
    (some (vName k) :: r.1, r.2)
  | none :: rest, k =>
    let r := renameArgs rest k
    (none :: r.1, r.2)

/-- The instruction loop of `renameVariables` (lines 112-118): every
instruction with `I.hasName() && !I.getType()->isVoidTy()` gets
`"v" + varCounter++`. -/
def renameInstrs : List Instr → Nat → List Instr × Nat
  | [], k => ([], k)
  | i :: rest, k =>
    if i.name.isSome && !i.isVoid then
      let r := renameInstrs rest (k + 1)
      ({ i with name := some (vName k) } :: r.1, r.2)
    else
      let r := renameInstrs rest k
      (i :: r.1, r.2)

/-- The block loop of `renameVariables` (line 111), threading the
counter through the blocks in order. -/
def renameBlocks : List (List Instr) → Nat → List (List Instr) × Nat
  | [], k => ([], k)
  | bb :: rest, k =>
    let r1 := renameInstrs bb k
    let r2 := renameBlocks rest r1.2
    (r1.1 :: r2.1, r2.2)

/-- Per-function `renameVariables` (lines 96-120): declarations are
skipped (`if (F.isDeclaration()) continue;`); otherwise `varCounter`
starts at 1, arguments are renamed first, then the instructions block by
block.  The function's own name is untouched. -/
def renameVariablesF (f : Func) : Func :=
  if f.isDeclaration then f
  else
    let ra := renameArgs f.args 1
    let rb := renameBlocks f.blocks ra.2
    { f with args := ra.1, blocks := rb.1 }

/-- Module-level `renameVariables` (lines 93-123). -/
def renameVariables (M : IRModule) : IRModule :=
  { M with functions := M.functions.map renameVariablesF }

/-- The debug-call test of `stripDebugInfo` (lines 138-141): a direct call
whose called function's name starts with `"llvm.dbg."`. -/
def isDbgCall (i : Instr) : Bool :=
  match i.callee with
  | some n => strPrefix "llvm.dbg." n
  | none => false

/-- Function `stripDebugInfo` (`SimpleObfuscator.cpp` lines 128-160): collect and
erase every debug-intrinsic call, then erase the `llvm.dbg.cu` named
metadata node if present (`eraseNamedMetadata(getNamedMetadata(...))`
removes that one node); `modified` is true exactly when either step
removed something. -/
def stripDebugInfo (M : IRModule) : IRModule × Bool :=
  let hadCalls :=
    M.functions.any (fun f => f.blocks.any (fun bb => bb.any isDbgCall))
  let funcs :=
    M.functions.map (fun f =>
      { f with blocks := f.blocks.map (fun bb => bb.filter (fun i => !isDbgCall i)) })
  let hadCU := M.namedMD.contains "llvm.dbg.cu"
  (⟨funcs, M.namedMD.erase "llvm.dbg.cu"⟩, hadCalls || hadCU)

/-- Count of named arguments. -/
def namedArgCount (args : List (Option String)) : Nat :=
  args.countP (fun a => a.isSome)

/-- Count of named non-void instructions. -/
def namedInstrCount (is : List Instr) : Nat :=
  is.countP (fun i => i.name.isSome && !i.isVoid)

/-- Number of entities `renameVariables` renames inside one function. -/
def renCount (f : Func) : Nat :=
  namedArgCount f.args + namedInstrCount f.blocks.flatten

/-- The renaming slot an instruction occupies: its name when it is a
non-void named instruction, else nothing. -/
def instrSlot (i : Instr) : Option String :=
  if i.isVoid then none else i.name

/-- The names sitting in the renameable argument slots, in order. -/
def argSlots (args : List (Option String)) : List String :=
  args.filterMap id

/-- The names sitting in the renameable instruction slots, in order. -/
def instrSlots (blocks : List (List Instr)) : List String :=
  (blocks.map (fun bb => bb.filterMap instrSlot)).flatten

/-- A throwaway `Func` used as the `List.getD` default. -/
def dummyFunc : Func :=
  { name := "", isDeclaration := false, linkage := .internal,
    args := [], blocks := [] }

/-!
# Theorems

Shared helper lemmas first, then one theorem per claim (with witnesses or
counterexamples where required).
-/

/-! ## Helper lemmas: the XOR byte loop -/

/-- Decrypting an encryption restores every byte: the byte loop applied to
`encrypt_xor s key` is `s` again. -/
theorem xorLoop_encrypt_xor (s : List Nat) (key : Nat) :
    xorLoop (encrypt_xor s key) key = s := by
  induction s with
  | nil => rfl
  | cons b rest ih =>
    simp [encrypt_xor, xorLoop, Nat.xor_cancel_right] at *
    exact ih

/-- The byte loop preserves length. -/
theorem xorLoop_length (enc : List Nat) (key : Nat) :
    (xorLoop enc key).length = enc.length := by
  induction enc with
  | nil => rfl
  | cons b rest ih => simp [xorLoop, ih]

/-- Byte `i` of the byte loop's output is `enc[i] XOR key`. -/
theorem xorLoop_getD (enc : List Nat) (key : Nat) :
    ∀ i, i < enc.length → (xorLoop enc key).getD i 0 = enc.getD i 0 ^^^ key := by
  induction enc with
  | nil => intro i h; simp at h
  | cons b rest ih =>
    intro i h
    cases i with
    | zero => rfl
    | succ j =>
      simp only [xorLoop, List.getD_cons_succ]
      exact ih j (by simpa using h)

/-! ## C2: decrypt ∘ encrypt = id -/

/-- C2: for every non-empty byte string `S` and non-zero single-byte key
`K`, the injected XOR decryption routine applied to the XOR encryption of
`S` under `K` restores `S`: the decrypted buffer is exactly `S` followed
by the injected NUL terminator, and its byte content is `S`. -/
theorem c2_decrypt_encrypt_id (S : List Nat) (K : Nat)
    (hS : S ≠ []) (hK : K ≠ 0) (hK8 : K < 256) :
    xorLoop (encrypt_xor S K) K = S ∧
    _decrypt_xor true (encrypt_xor S K) K = some (S ++ [0]) := by
  refine ⟨xorLoop_encrypt_xor S K, ?_⟩
  simp [_decrypt_xor, xorLoop_encrypt_xor]

/-- Witness for C2 at `S = "abc"`-bytes, `K = 0xAB`. -/
theorem c2_decrypt_encrypt_id_witness :
    xorLoop (encrypt_xor [97, 98, 99] 0xAB) 0xAB = [97, 98, 99] ∧
    _decrypt_xor true (encrypt_xor [97, 98, 99] 0xAB) 0xAB
      = some ([97, 98, 99] ++ [0]) :=
  c2_decrypt_encrypt_id [97, 98, 99] 0xAB (by decide) (by decide) (by decide)

/-! ## C10: shape of the decrypt routine's output -/

/-- C10: for every ciphertext and key, `_decrypt_xor` returns `none`
exactly when allocation fails; on success it returns a buffer of
`len + 1` bytes whose byte `i` is `enc[i] XOR k` for `i < len` and whose
final byte is the NUL terminator. -/
theorem c10_decrypt_buffer_shape (allocOk : Bool) (enc : List Nat) (key : Nat) :
    (allocOk = false → _decrypt_xor allocOk enc key = none) ∧
    (allocOk = true → ∃ buf, _decrypt_xor allocOk enc key = some buf ∧
       buf.length = enc.length + 1 ∧
       (∀ i, i < enc.length → buf.getD i 0 = enc.getD i 0 ^^^ key) ∧
       buf.getD enc.length 0 = 0) := by
  constructor
  · intro h; simp [_decrypt_xor, h]
  · intro h
    refine ⟨xorLoop enc key ++ [0], by simp [_decrypt_xor, h], ?_, ?_, ?_⟩
    · simp [xorLoop_length]
    · intro i hi
      rw [List.getD_append _ _ _ _ (by simpa [xorLoop_length] using hi)]
      exact xorLoop_getD enc key i hi
    · rw [List.getD_append_right _ _ _ _ (by simp [xorLoop_length])]
      simp [xorLoop_length]

/-- Witness for C10 at `enc = [1, 2]`, `key = 3`, both oracle values. -/
theorem c10_decrypt_buffer_shape_witness :
    _decrypt_xor false [1, 2] 3 = none ∧
    (∃ buf, _decrypt_xor true [1, 2] 3 = some buf ∧
       buf.length = [1, 2].length + 1 ∧
       (∀ i, i < [1, 2].length → buf.getD i 0 = [1, 2].getD i 0 ^^^ 3) ∧
       buf.getD [1, 2].length 0 = 0) :=
  ⟨(c10_decrypt_buffer_shape false [1, 2] 3).1 rfl,
   (c10_decrypt_buffer_shape true [1, 2] 3).2 rfl⟩

/-! ## C9: `check_password` behaviour is preserved by String Encryption -/

/-- C9: after String Encryption, `check_password` accepts `"admin123"`
and rejects `"wrong"` exactly as the original does (indeed the two
functions agree on every input whenever decryption allocates), and
XOR-decrypting the stored ciphertext with key `0xAB` yields exactly the
bytes of `"admin123"`. -/
theorem c9_check_password_preserved :
    check_password (some SECRET_PASSWORD) = 1 ∧
    check_password (some [119, 114, 111, 110, 103]) = 0 ∧
    check_password_obf true (some SECRET_PASSWORD) = 1 ∧
    check_password_obf true (some [119, 114, 111, 110, 103]) = 0 ∧
    (∀ input, check_password_obf true input = check_password input) ∧
    xorLoop _encrypted_password 0xAB = SECRET_PASSWORD := by
  refine ⟨by decide, by decide, by decide, by decide, ?_, by decide⟩
  intro input
  cases input with
  | none => rfl
  | some s =>
    have h : cString (xorLoop _encrypted_password 0xAB ++ [0])
        = cString SECRET_PASSWORD := by decide
    simp [check_password, check_password_obf, _decrypt_xor, strcmpEq, h]

/-! ## C8: null checks at decrypted-buffer call sites (violated) -/

/-- C8 is violated by the report fixture
`test_api_simple_string_encrypted.c`: when the injected decryption fails
to allocate, `main` passes the resulting NULL `API_KEY` / `DB_PASSWORD`
straight to `printf("%s", ...)` with no null check, dereferencing the
null buffer instead of failing gracefully (by contrast,
`check_password` in `simple_auth_obfuscated.c` does check). -/
theorem c8_null_check_missing :
    test_api_main false = none ∧
    check_password_obf false (some SECRET_PASSWORD) = 0 := by
  exact ⟨rfl, rfl⟩

/-! ## C1: control-flow flattening equivalence (violated) -/

/-- C1 is violated by `license_validator_protected.c`: on the master key
the original `validate_license_key` prints the professional-activation
line and returns 1, while the flattened fixture's state machine (path
0 → 1 → 3 → 2) returns 0 and prints nothing — the length/format/strcmp
logic was left stranded outside the function.  (`r = 0` is the `rand()`
value, `addr = 1` the non-null address of `main`.) -/
theorem c1_flattening_not_equivalent :
    flatValidate 0 1 (some MASTER_KEY) 10 = FlatResult.ret 0 ∧
    validate_license_key (some MASTER_KEY)
      = (["License valid - Professional edition activated"], 1) := by
  exact ⟨by decide, by decide⟩

/-! ## C4: decoy states unreachable (violated) -/

/-- C4 is violated by `license_validator_level2.c`: real state 1 of the
flattened `check_license_expiry` assigns the decoy state 3 to the
dispatch variable on its `strlen >= 9` branch, so for any license key of
length ≥ 9 (e.g. the master key) state 3 is entered — and self-loops —
while the original function returns 1 on that key. -/
theorem c4_decoy_state_entered :
    flatExpiryStep 1 MASTER_KEY 1 = FlatStep.next 3 ∧
    3 ∈ flatExpiryTrace 1 MASTER_KEY 5 0 ∧
    flatExpiryStep 1 MASTER_KEY 3 = FlatStep.next 3 ∧
    check_license_expiry MASTER_KEY = ([], 1) := by
  exact ⟨by decide, by decide, by decide, by decide⟩

/-! ## C3: opaque predicates always evaluate false -/

/-- No state body of the flattened `validate_license_key` can crash when
the address of `main` is non-null. -/
theorem flatValidateStep_ne_crash (addr : Nat) (user_key : Option (List Nat))
    (s : Nat) (h : addr ≠ 0) :
    flatValidateStep addr user_key s ≠ FlatStep.crash := by
  unfold flatValidateStep
  split <;>
    simp_all [opq_nullPtr, opq_volatilePos, opq_smallBig, opq_mainAddr] <;>
    split <;> simp_all

/-- The dispatch loop of the flattened `validate_license_key` never
crashes when the address of `main` is non-null. -/
theorem flatValidateRun_ne_crash (addr : Nat) (user_key : Option (List Nat))
    (h : addr ≠ 0) :
    ∀ fuel s, flatValidateRun addr user_key fuel s ≠ FlatResult.crash := by
  intro fuel
  induction fuel with
  | zero => intro s; simp [flatValidateRun]
  | succ n ih =>
    intro s
    unfold flatValidateRun
    cases hs : flatValidateStep addr user_key s with
    | next s2 => simpa [hs] using ih s2
    | exit v => simp [hs]
    | crash => exact absurd hs (flatValidateStep_ne_crash addr user_key s h)
    | invalid => simp [hs]

/-- No state body of the flattened `check_license_expiry` can crash when
the address of `main` is non-null. -/
theorem flatExpiryStep_ne_crash (addr : Nat) (license_key : List Nat)
    (s : Nat) (h : addr ≠ 0) :
    flatExpiryStep addr license_key s ≠ FlatStep.crash := by
  unfold flatExpiryStep
  split <;>
    simp_all [opq_volatilePos, opq_smallBig, opq_mainAddr] <;>
    split <;> simp_all

/-- The dispatch loop of the flattened `check_license_expiry` never
crashes when the address of `main` is non-null. -/
theorem flatExpiryRun_ne_crash (addr : Nat) (license_key : List Nat)
    (h : addr ≠ 0) :
    ∀ fuel s, flatExpiryRun addr license_key fuel s ≠ FlatResult.crash := by
  intro fuel
  induction fuel with
  | zero => intro s; simp [flatExpiryRun]
  | succ n ih =>
    intro s
    unfold flatExpiryRun
    cases hs : flatExpiryStep addr license_key s with
    | next s2 => simpa [hs] using ih s2
    | exit v => simp [hs]
    | crash => exact absurd hs (flatExpiryStep_ne_crash addr license_key s h)
    | invalid => simp [hs]

/-- C3: every injected opaque-predicate guard of the protected fixtures
evaluates false for every program input — `rand() % 4 >= 4` for any
`rand()` value, `(int*)0 != NULL`, the volatile simultaneously-negative-
and-positive test for any read value, the small-constant-exceeds-large-
bound tests (53 > 7810, 73 > 9454), and `&main == 0` for the non-null
address of `main` — so neither flattened fixture ever reaches its guarded
abort/exit/invalid-free code. -/
theorem c3_opaque_guards_false (r : Nat) (v : Int) (addr : Nat)
    (h : addr ≠ 0) :
    opq_rand r = false ∧ opq_nullPtr = false ∧ opq_volatilePos v = false ∧
    opq_smallBig 53 7810 = false ∧ opq_smallBig 73 9454 = false ∧
    opq_mainAddr addr = false ∧
    (∀ (user_key : Option (List Nat)) (fuel s : Nat),
       flatValidateRun addr user_key fuel s ≠ FlatResult.crash) ∧
    (∀ (license_key : List Nat) (fuel s : Nat),
       flatExpiryRun addr license_key fuel s ≠ FlatResult.crash) ∧
    (∀ (user_key : Option (List Nat)) (fuel : Nat),
       flatValidate r addr user_key fuel ≠ FlatResult.crash) := by
  have hr : opq_rand r = false := by
    simp only [opq_rand, decide_eq_false_iff_not]
    omega
  refine ⟨hr, by simp [opq_nullPtr], ?_, by decide, by decide,
    by simp [opq_mainAddr, h], ?_, ?_, ?_⟩
  · simp only [opq_volatilePos, decide_eq_false_iff_not]
    omega
  · intro user_key fuel s; exact flatValidateRun_ne_crash addr user_key h fuel s
  · intro license_key fuel s; exact flatExpiryRun_ne_crash addr license_key h fuel s
  · intro user_key fuel
    unfold flatValidate
    rw [hr]
    simpa using flatValidateRun_ne_crash addr user_key h fuel 0

/-- Witness for C3 at `rand() = 7`, volatile read `= 25`, `&main = 77`. -/
theorem c3_opaque_guards_false_witness :
    opq_rand 7 = false ∧ opq_nullPtr = false ∧
    opq_volatilePos 25 = false ∧ opq_mainAddr 77 = false ∧
    flatValidateRun 77 (some MASTER_KEY) 10 0 ≠ FlatResult.crash ∧
    flatExpiryRun 77 MASTER_KEY 10 0 ≠ FlatResult.crash := by
  have h := c3_opaque_guards_false 7 25 77 (by decide)
  exact ⟨h.1, h.2.1, h.2.2.1, h.2.2.2.2.2.1,
    h.2.2.2.2.2.2.1 (some MASTER_KEY) 10 0,
    h.2.2.2.2.2.2.2.1 MASTER_KEY 10 0⟩

/-! ## Helper lemmas: injectivity of `Nat.repr`

Needed for C6's no-collision guarantee: distinct counters yield distinct
`"v" + std::to_string(k)` names. -/

/-- At base 10, with enough fuel and a positive input, `Nat.toDigitsCore`
produces the decimal digits (most significant first) in front of the
accumulator. -/
theorem toDigitsCore_eq_digits (fuel : Nat) :
    ∀ n ds, 1 ≤ n → n < fuel →
      Nat.toDigitsCore 10 fuel n ds
        = ((Nat.digits 10 n).map Nat.digitChar).reverse ++ ds := by
  induction fuel with
  | zero => intro n ds h1 h2; omega
  | succ f ih =>
    intro n ds h1 h2
    have hd : Nat.digits 10 n = n % 10 :: Nat.digits 10 (n / 10) :=
      Nat.digits_def' (by norm_num) h1
    by_cases h0 : n / 10 = 0
    · have hnil : Nat.digits 10 (n / 10) = [] := by rw [h0]; simp
      rw [Nat.toDigitsCore]
      simp [h0, hd, hnil]
    · have hn1 : 1 ≤ n / 10 := Nat.one_le_iff_ne_zero.mpr h0
      have hlt : n / 10 < f :=
        lt_of_lt_of_le (Nat.div_lt_self h1 (by norm_num)) (by omega)
      rw [Nat.toDigitsCore]
      simp only [h0, if_false]
      rw [ih (n / 10) (Nat.digitChar (n % 10) :: ds) hn1 hlt, hd]
      simp

/-- The map `Nat.digitChar` is injective below 10. -/
theorem digitChar_inj_lt :
    ∀ a < 10, ∀ b < 10, Nat.digitChar a = Nat.digitChar b → a = b := by
  decide

/-- Mapping `Nat.digitChar` over lists of decimal digits is injective. -/
theorem map_digitChar_inj :
    ∀ (l1 l2 : List Nat), (∀ x ∈ l1, x < 10) → (∀ x ∈ l2, x < 10) →
      l1.map Nat.digitChar = l2.map Nat.digitChar → l1 = l2 := by
  intro l1
  induction l1 with
  | nil =>
    intro l2 _ _ h
    cases l2 with
    | nil => rfl
    | cons b t => simp at h
  | cons a t ih =>
    intro l2 h1 h2 h
    cases l2 with
    | nil => simp at h
    | cons b t2 =>
      simp only [List.map_cons, List.cons.injEq] at h
      have ha : a = b :=
        digitChar_inj_lt a (h1 a (by simp)) b (h2 b (by simp)) h.1
      have ht := ih t2 (fun x hx => h1 x (by simp [hx]))
        (fun x hx => h2 x (by simp [hx])) h.2
      rw [ha, ht]

/-- Applied to a positive number, `Nat.toDigits 10` gives its decimal digit
characters, most significant first. -/
theorem toDigits_eq_digits (n : Nat) (h : 1 ≤ n) :
    Nat.toDigits 10 n = ((Nat.digits 10 n).map Nat.digitChar).reverse := by
  unfold Nat.toDigits
  simpa using toDigitsCore_eq_digits (n + 1) n [] h (by omega)

/-- The decimal representation of a natural number determines it. -/
theorem nat_repr_injective : Function.Injective Nat.repr := by
  intro m n h
  unfold Nat.repr at h
  rw [List.asString_inj] at h
  have hz : Nat.toDigits 10 0 = ['0'] := by decide
  have digits10 : ∀ x d, d ∈ Nat.digits 10 x → d < 10 := fun x d hd =>
    Nat.digits_lt_base (by norm_num) hd
  have zero_case : ∀ x, 1 ≤ x → Nat.toDigits 10 x ≠ ['0'] := by
    intro x hx hcon
    rw [toDigits_eq_digits x hx] at hcon
    have hmap : (Nat.digits 10 x).map Nat.digitChar = ['0'] := by
      have := congrArg List.reverse hcon
      simpa using this
    have hdig : Nat.digits 10 x = [0] := by
      cases hL : Nat.digits 10 x with
      | nil => rw [hL] at hmap; simp at hmap
      | cons d t =>
        rw [hL] at hmap
        simp only [List.map_cons, List.cons.injEq, List.map_eq_nil_iff] at hmap
        have hd10 : d < 10 := digits10 x d (by rw [hL]; simp)
        have : d = 0 :=
          digitChar_inj_lt d hd10 0 (by norm_num) (by simpa using hmap.1)
        rw [this, hmap.2]
    have : x = 0 := by
      have := Nat.ofDigits_digits 10 x
      rw [hdig] at this
      simpa [Nat.ofDigits] using this.symm
    omega
  rcases Nat.eq_zero_or_pos m with hm | hm
  · rcases Nat.eq_zero_or_pos n with hn | hn
    · omega
    · subst hm; rw [hz] at h; exact absurd h.symm (zero_case n hn)
  · rcases Nat.eq_zero_or_pos n with hn | hn
    · subst hn; rw [hz] at h; exact absurd h (zero_case m hm)
    · rw [toDigits_eq_digits m hm, toDigits_eq_digits n hn] at h
      rw [List.reverse_inj] at h
      have := map_digitChar_inj _ _ (fun x hx => digits10 m x hx)
        (fun x hx => digits10 n x hx) h
      exact Nat.digits_inj_iff.mp this

/-- The naming scheme `vName` (`"v" + std::to_string(k)`) is injective. -/
theorem vName_injective : Function.Injective vName := by
  intro a b h
  apply nat_repr_injective
  unfold vName at h
  have h2 := congrArg String.data h
  simp only [String.data_append] at h2
  have h3 : (Nat.repr a).toList = (Nat.repr b).toList := by
    simpa using h2
  exact String.toList_inj.mp h3

/-! ## C5: `renameFunctions` -/

/-- In this LLVM generation the llvm.-prefix test duplicates
`isIntrinsic`, so the pass's four-way test coincides with the claim's
three-way wording. -/
theorem shouldRenameFunc_eq_claim (f : Func) :
    shouldRenameFunc f = claimEligibleFunc f := by
  unfold shouldRenameFunc claimEligibleFunc Func.isIntrinsic
  cases hx : strPrefix "llvm." f.name <;> simp [hx]

/-- The pass step `renameFunctions` preserves the number of functions. -/
theorem renameFunctions_length (fs : List Func) (k : Nat) :
    (renameFunctions fs k).length = fs.length := by
  induction fs generalizing k with
  | nil => rfl
  | cons f rest ih =>
    unfold renameFunctions
    by_cases hf : shouldRenameFunc f <;> simp [hf, ih]

/-- Positional specification of `renameFunctions` for an arbitrary start
counter: the `i`-th function is renamed to `"f" + (k + number of eligible
functions before it)` when eligible, and is untouched otherwise. -/
theorem renameFunctions_getD (fs : List Func) :
    ∀ (k i : Nat), i < fs.length →
      (shouldRenameFunc (fs.getD i dummyFunc) = true →
        ((renameFunctions fs k).getD i dummyFunc).name
          = "f" ++ Nat.repr (k + (fs.take i).countP shouldRenameFunc)) ∧
      (shouldRenameFunc (fs.getD i dummyFunc) = false →
        (renameFunctions fs k).getD i dummyFunc = fs.getD i dummyFunc) := by
  induction fs with
  | nil => intro k i h; simp at h
  | cons f rest ih =>
    intro k i h
    cases i with
    | zero =>
      by_cases hf : shouldRenameFunc f <;>
        simp [renameFunctions, hf]
    | succ i =>
      have hi : i < rest.length := by simpa using h
      by_cases hf : shouldRenameFunc f
      · constructor
        · intro he
          have := (ih (k + 1) i hi).1 (by simpa using he)
          simpa [renameFunctions, hf, List.countP_cons, Nat.add_assoc,
            Nat.add_comm 1] using this
        · intro he
          have := (ih (k + 1) i hi).2 (by simpa using he)
          simpa [renameFunctions, hf] using this
      · constructor
        · intro he
          have := (ih k i hi).1 (by simpa using he)
          simpa [renameFunctions, hf, List.countP_cons] using this
        · intro he
          have := (ih k i hi).2 (by simpa using he)
          simpa [renameFunctions, hf] using this

/-- C5: the Symbol Renamer renames exactly the functions that are defined,
not intrinsic, and not of external linkage; the `i`-th function of the
module, when it is the `k`-th eligible one, becomes `f<k>` with `k`
starting at 1 in declaration order, and every other function — external,
declaration-only, or intrinsic — is left completely unchanged. -/
theorem c5_renameFunctions_exact (fs : List Func) (i : Nat)
    (h : i < fs.length) :
    (renameFunctions fs 1).length = fs.length ∧
    (claimEligibleFunc (fs.getD i dummyFunc) = true →
      ((renameFunctions fs 1).getD i dummyFunc).name
        = "f" ++ Nat.repr (1 + (fs.take i).countP claimEligibleFunc)) ∧
    (claimEligibleFunc (fs.getD i dummyFunc) = false →
      (renameFunctions fs 1).getD i dummyFunc = fs.getD i dummyFunc) := by
  have hc : (fs.take i).countP shouldRenameFunc
      = (fs.take i).countP claimEligibleFunc := by
    apply List.countP_congr
    intro f _
    rw [shouldRenameFunc_eq_claim]
  refine ⟨renameFunctions_length fs 1, ?_, ?_⟩
  · intro he
    rw [← hc]
    exact (renameFunctions_getD fs 1 i h).1
      (by rw [shouldRenameFunc_eq_claim]; exact he)
  · intro he
    exact (renameFunctions_getD fs 1 i h).2
      (by rw [shouldRenameFunc_eq_claim]; exact he)

/-- Witness for C5 on the spec's scenario 4: an external function followed
by two internal ones; the external keeps its name, the internal ones
become `f1`, `f2`. -/
theorem c5_renameFunctions_exact_witness :
    ((renameFunctions
        [{ name := "ext", isDeclaration := false, linkage := .external,
           args := [], blocks := [] },
         { name := "alpha", isDeclaration := false, linkage := .internal,
           args := [], blocks := [] },
         { name := "beta", isDeclaration := false, linkage := .internal,
           args := [], blocks := [] }] 1).map Func.name
      = ["ext", "f1", "f2"]) ∧
    (((renameFunctions
        [{ name := "ext", isDeclaration := false, linkage := .external,
           args := [], blocks := [] },
         { name := "alpha", isDeclaration := false, linkage := .internal,
           args := [], blocks := [] },
         { name := "beta", isDeclaration := false, linkage := .internal,
           args := [], blocks := [] }] 1).getD 2 dummyFunc).name = "f2") := by
  constructor
  · decide
  · have := (c5_renameFunctions_exact
      [{ name := "ext", isDeclaration := false, linkage := .external,
         args := [], blocks := [] },
       { name := "alpha", isDeclaration := false, linkage := .internal,
         args := [], blocks := [] },
       { name := "beta", isDeclaration := false, linkage := .internal,
         args := [], blocks := [] }] 2 (by decide)).2.1 (by decide)
    simpa using this

/-! ## C6: `renameVariables` -/

/-- Unfolding `renameArgs` on a named argument. -/
theorem renameArgs_cons_some (s : String) (rest : List (Option String))
    (k : Nat) :
    renameArgs (some s :: rest) k
      = (some (vName k) :: (renameArgs rest (k + 1)).1,
         (renameArgs rest (k + 1)).2) := rfl

/-- Unfolding `renameArgs` on an unnamed argument. -/
theorem renameArgs_cons_none (rest : List (Option String)) (k : Nat) :
    renameArgs (none :: rest) k
      = (none :: (renameArgs rest k).1, (renameArgs rest k).2) := rfl

/-- Unfolding `renameInstrs` on a renamed instruction. -/
theorem renameInstrs_cons_pos (i : Instr) (rest : List Instr) (k : Nat)
    (h : (i.name.isSome && !i.isVoid) = true) :
    renameInstrs (i :: rest) k
      = ({ i with name := some (vName k) } :: (renameInstrs rest (k + 1)).1,
         (renameInstrs rest (k + 1)).2) := by
  simp only [renameInstrs]
  rw [if_pos h]

/-- Unfolding `renameInstrs` on a skipped instruction. -/
theorem renameInstrs_cons_neg (i : Instr) (rest : List Instr) (k : Nat)
    (h : ¬(i.name.isSome && !i.isVoid) = true) :
    renameInstrs (i :: rest) k
      = (i :: (renameInstrs rest k).1, (renameInstrs rest k).2) := by
  simp only [renameInstrs]
  rw [if_neg h]

/-- Specification of the argument loop: the named slots receive
`v<k>, v<k+1>, ...` in order, and the counter advances by the number of
named arguments. -/
theorem renameArgs_spec (args : List (Option String)) :
    ∀ k, argSlots (renameArgs args k).1
        = (List.range' k (namedArgCount args)).map vName ∧
      (renameArgs args k).2 = k + namedArgCount args := by
  induction args with
  | nil => intro k; simp [renameArgs, argSlots, namedArgCount]
  | cons a rest ih =>
    intro k
    cases a with
    | some s =>
      have h := ih (k + 1)
      have hc : namedArgCount (some s :: rest) = namedArgCount rest + 1 := by
        simp [namedArgCount, List.countP_cons]
      constructor
      · rw [renameArgs_cons_some, hc]
        show vName k :: argSlots (renameArgs rest (k + 1)).1 = _
        rw [List.range'_succ, List.map_cons, h.1]
      · rw [renameArgs_cons_some, hc]
        show (renameArgs rest (k + 1)).2 = _
        rw [h.2]
        omega
    | none =>
      have h := ih k
      have hc : namedArgCount (none :: rest) = namedArgCount rest := by
        simp [namedArgCount, List.countP_cons]
      constructor
      · rw [renameArgs_cons_none, hc]
        show argSlots (renameArgs rest k).1 = _
        exact h.1
      · rw [renameArgs_cons_none, hc]
        exact h.2

/-- Specification of the instruction loop within one block. -/
theorem renameInstrs_spec (is : List Instr) :
    ∀ k, (renameInstrs is k).1.filterMap instrSlot
        = (List.range' k (namedInstrCount is)).map vName ∧
      (renameInstrs is k).2 = k + namedInstrCount is := by
  induction is with
  | nil => intro k; simp [renameInstrs, namedInstrCount]
  | cons i rest ih =>
    intro k
    by_cases hi : (i.name.isSome && !i.isVoid) = true
    · have h := ih (k + 1)
      have hv : i.isVoid = false := by
        have h2 := hi
        simp only [Bool.and_eq_true, Bool.not_eq_true'] at h2
        exact h2.2
      have hc : namedInstrCount (i :: rest) = namedInstrCount rest + 1 := by
        simp [namedInstrCount, List.countP_cons, hi]
      constructor
      · rw [renameInstrs_cons_pos _ _ _ hi, hc]
        have hslot : instrSlot { i with name := some (vName k) }
            = some (vName k) := by
          simp [instrSlot, hv]
        simp only [List.filterMap_cons, hslot]
        rw [List.range'_succ, List.map_cons, h.1]
      · rw [renameInstrs_cons_pos _ _ _ hi, hc]
        simp only
        rw [h.2]
        omega
    · have h := ih k
      have hc : namedInstrCount (i :: rest) = namedInstrCount rest := by
        simp [namedInstrCount, List.countP_cons, Bool.eq_false_iff.mpr hi]
      have hslot : instrSlot i = none := by
        simp only [instrSlot]
        by_cases hv : i.isVoid
        · simp [hv]
        · simp only [hv, if_false]
          cases hn : i.name with
          | none => rfl
          | some s =>
            exfalso
            apply hi
            simp [hn, Bool.eq_false_iff.mp, hv]
      constructor
      · rw [renameInstrs_cons_neg _ _ _ hi, hc]
        simp only [List.filterMap_cons, hslot]
        exact h.1
      · rw [renameInstrs_cons_neg _ _ _ hi, hc]
        exact h.2

/-- Specification of the block loop: slot names across all blocks are
`v<k>, v<k+1>, ...` in traversal order. -/
theorem renameBlocks_spec (bbs : List (List Instr)) :
    ∀ k, instrSlots (renameBlocks bbs k).1
        = (List.range' k (namedInstrCount bbs.flatten)).map vName ∧
      (renameBlocks bbs k).2 = k + namedInstrCount bbs.flatten := by
  induction bbs with
  | nil => intro k; simp [renameBlocks, instrSlots, namedInstrCount]
  | cons bb rest ih =>
    intro k
    have h1 := renameInstrs_spec bb k
    have hcount : namedInstrCount ((bb :: rest).flatten)
        = namedInstrCount bb + namedInstrCount rest.flatten := by
      simp [namedInstrCount, List.countP_append]
    have hb : renameBlocks (bb :: rest) k
        = ((renameInstrs bb k).1 :: (renameBlocks rest (renameInstrs bb k).2).1,
           (renameBlocks rest (renameInstrs bb k).2).2) := rfl
    have h2 := ih (renameInstrs bb k).2
    constructor
    · rw [hb]
      show (renameInstrs bb k).1.filterMap instrSlot
          ++ instrSlots (renameBlocks rest (renameInstrs bb k).2).1 = _
      rw [h1.1, h2.1, h1.2, hcount, ← List.map_append, List.range'_append_1,
        Nat.add_comm (namedInstrCount rest.flatten)]
    · rw [hb]
      show (renameBlocks rest (renameInstrs bb k).2).2 = _
      rw [h2.2, h1.2, hcount]
      omega

/-- The helper `renameVariablesF` never touches the function's name. -/
theorem renameVariablesF_name (f : Func) :
    (renameVariablesF f).name = f.name := by
  unfold renameVariablesF
  split <;> rfl

/-- C6: inside each defined function the Symbol Renamer hands out the
names `v1, v2, ...` — one counter restarting at 1 per function — to
exactly the named arguments followed by the named non-void instruction
results in traversal order; these new names are pairwise distinct within
the function, and no function's own name (in particular no external,
declaration-only, or intrinsic function's name) is changed by the pass. -/
theorem c6_renameVariables_fresh_names (f : Func) (M : IRModule)
    (hf : f.isDeclaration = false) :
    (argSlots (renameVariablesF f).args
        ++ instrSlots (renameVariablesF f).blocks
      = (List.range' 1 (renCount f)).map vName) ∧
    (argSlots (renameVariablesF f).args
      ++ instrSlots (renameVariablesF f).blocks).Nodup ∧
    ((renameVariables M).functions.map Func.name
      = M.functions.map Func.name) := by
  have ha := renameArgs_spec f.args 1
  have hb := renameBlocks_spec f.blocks (renameArgs f.args 1).2
  have hF : renameVariablesF f
      = { f with args := (renameArgs f.args 1).1,
                 blocks := (renameBlocks f.blocks (renameArgs f.args 1).2).1 } := by
    unfold renameVariablesF
    rw [if_neg (by simp [hf])]
  have hmain : argSlots (renameVariablesF f).args
      ++ instrSlots (renameVariablesF f).blocks
      = (List.range' 1 (renCount f)).map vName := by
    rw [hF]
    show argSlots (renameArgs f.args 1).1
        ++ instrSlots (renameBlocks f.blocks (renameArgs f.args 1).2).1 = _
    rw [ha.1, hb.1, ha.2, ← List.map_append, List.range'_append_1, renCount,
      Nat.add_comm (namedInstrCount f.blocks.flatten)]
  refine ⟨hmain, ?_, ?_⟩
  · rw [hmain]
    exact (List.nodup_range' 1 (renCount f)).map vName_injective
  · unfold renameVariables
    simp only [List.map_map]
    apply List.map_congr_left
    intro g _
    exact renameVariablesF_name g

/-- Witness for C6 on a concrete function `g` (named argument `x`,
unnamed argument, named non-void instruction `t`, named void debug call
`d`, unnamed instruction), inside a one-function module. -/
theorem c6_renameVariables_fresh_names_witness :
    (argSlots (renameVariablesF (Func.mk "g" false .internal
          [some "x", none]
          [[Instr.mk (some "t") false none,
            Instr.mk (some "d") true (some "llvm.dbg.value"),
            Instr.mk none false none]])).args
        ++ instrSlots (renameVariablesF (Func.mk "g" false .internal
          [some "x", none]
          [[Instr.mk (some "t") false none,
            Instr.mk (some "d") true (some "llvm.dbg.value"),
            Instr.mk none false none]])).blocks
      = (List.range' 1 (renCount (Func.mk "g" false .internal
          [some "x", none]
          [[Instr.mk (some "t") false none,
            Instr.mk (some "d") true (some "llvm.dbg.value"),
            Instr.mk none false none]]))).map vName) ∧
    (argSlots (renameVariablesF (Func.mk "g" false .internal
          [some "x", none]
          [[Instr.mk (some "t") false none,
            Instr.mk (some "d") true (some "llvm.dbg.value"),
            Instr.mk none false none]])).args
        ++ instrSlots (renameVariablesF (Func.mk "g" false .internal
          [some "x", none]
          [[Instr.mk (some "t") false none,
            Instr.mk (some "d") true (some "llvm.dbg.value"),
            Instr.mk none false none]])).blocks).Nodup ∧
    ((renameVariables (IRModule.mk [Func.mk "g" false .internal
          [some "x", none]
          [[Instr.mk (some "t") false none,
            Instr.mk (some "d") true (some "llvm.dbg.value"),
            Instr.mk none false none]]] [])).functions.map Func.name
      = (IRModule.mk [Func.mk "g" false .internal
          [some "x", none]
          [[Instr.mk (some "t") false none,
            Instr.mk (some "d") true (some "llvm.dbg.value"),
            Instr.mk none false none]]] []).functions.map Func.name) :=
  c6_renameVariables_fresh_names
    (Func.mk "g" false .internal
      [some "x", none]
      [[Instr.mk (some "t") false none,
        Instr.mk (some "d") true (some "llvm.dbg.value"),
        Instr.mk none false none]])
    (IRModule.mk [Func.mk "g" false .internal
      [some "x", none]
      [[Instr.mk (some "t") false none,
        Instr.mk (some "d") true (some "llvm.dbg.value"),
        Instr.mk none false none]]] [])
    rfl

/-! ## C7: `stripDebugInfo` -/

/-- C7: after the Debug Stripper runs on any module (whose named-metadata
names are unique, as LLVM guarantees), no debug-intrinsic call — a direct
call to a function whose name starts with `llvm.dbg.` — remains in any
basic block, no `llvm.dbg.cu` named metadata remains, and the returned
`modified` flag is true exactly when at least one such call or metadata
node was present (hence removed). -/
theorem c7_stripDebugInfo_complete (M : IRModule)
    (hnd : M.namedMD.Nodup) :
    (∀ f ∈ (stripDebugInfo M).1.functions, ∀ bb ∈ f.blocks, ∀ i ∈ bb,
       isDbgCall i = false) ∧
    ("llvm.dbg.cu" ∉ (stripDebugInfo M).1.namedMD) ∧
    ((stripDebugInfo M).2 = true ↔
       ((∃ f ∈ M.functions, ∃ bb ∈ f.blocks, ∃ i ∈ bb, isDbgCall i = true) ∨
        "llvm.dbg.cu" ∈ M.namedMD)) := by
  refine ⟨?_, ?_, ?_⟩
  · intro f hf bb hbb i hi
    simp only [stripDebugInfo, List.mem_map] at hf
    rcases hf with ⟨g, hg, rfl⟩
    simp only [List.mem_map] at hbb
    rcases hbb with ⟨bb0, hbb0, rfl⟩
    have := List.of_mem_filter hi
    simpa using this
  · intro hmem
    simp only [stripDebugInfo] at hmem
    have := (List.Nodup.mem_erase_iff hnd).mp hmem
    exact this.1 rfl
  · simp only [stripDebugInfo, Bool.or_eq_true, List.any_eq_true]
    constructor
    · rintro (h | h)
      · left
        rcases h with ⟨f, hf, bb, hbb, i, hi, hd⟩
        exact ⟨f, hf, bb, hbb, i, hi, hd⟩
      · right
        simpa [List.contains] using h
    · rintro (h | h)
      · left
        rcases h with ⟨f, hf, bb, hbb, i, hi, hd⟩
        exact ⟨f, hf, bb, hbb, i, hi, hd⟩
      · right
        simpa [List.contains] using h

/-- Witness for C7 on the spec's scenario 3: one function with two debug
calls and one compile-unit metadata node. -/
theorem c7_stripDebugInfo_complete_witness :
    (∀ f ∈ (stripDebugInfo (IRModule.mk
        [Func.mk "g" false .internal []
          [[Instr.mk none true (some "llvm.dbg.declare"),
            Instr.mk (some "x") false (some "foo"),
            Instr.mk none true (some "llvm.dbg.value")]]]
        ["llvm.dbg.cu"])).1.functions, ∀ bb ∈ f.blocks, ∀ i ∈ bb,
       isDbgCall i = false) ∧
    ("llvm.dbg.cu" ∉ (stripDebugInfo (IRModule.mk
        [Func.mk "g" false .internal []
          [[Instr.mk none true (some "llvm.dbg.declare"),
            Instr.mk (some "x") false (some "foo"),
            Instr.mk none true (some "llvm.dbg.value")]]]
        ["llvm.dbg.cu"])).1.namedMD) ∧
    (stripDebugInfo (IRModule.mk
        [Func.mk "g" false .internal []
          [[Instr.mk none true (some "llvm.dbg.declare"),
            Instr.mk (some "x") false (some "foo"),
            Instr.mk none true (some "llvm.dbg.value")]]]
        ["llvm.dbg.cu"])).2 = true := by
  have h := c7_stripDebugInfo_complete (IRModule.mk
      [Func.mk "g" false .internal []
        [[Instr.mk none true (some "llvm.dbg.declare"),
          Instr.mk (some "x") false (some "foo"),
          Instr.mk none true (some "llvm.dbg.value")]]]
      ["llvm.dbg.cu"]) (by simp)
  refine ⟨h.1, h.2.1, h.2.2.mpr ?_⟩
  right
  simp
